import Mathlib

/-!
Verification development for the `nwrfc` protocol abstraction layer.

The Rust sources under `src/src/protocol` are shallowly embedded below:

* SAP wide characters (`SAP_UC`, UTF-16 code units) and Unicode codepoints are
  both represented as `Nat`; a Rust `String` is represented by the list of its
  Unicode codepoints, a `SAP_UC` buffer by the list of its code units.
* The foreign NW RFC SDK entry points (`RfcUTF8ToSAPUC`, `RfcSAPUCToUTF8`,
  the metadata construction and lookup calls) are not part of the repository;
  they are modelled from the specification, and each such definition carries a
  doc comment that starts with `Modelled from the spec:`.
* Rust functions that can panic are embedded with an explicit `Panics` result;
  fallible functions return `Except`.
* Machine integers are embedded as `Nat`; where a 32-bit overflow or an
  `as c_uint` cast is observable, an explicit `% 4294967296` is inserted.
-/

set_option autoImplicit false

namespace NwRfc

/-! ## Return codes and error groups (src/src/protocol/enums.rs)

The `sap_enum!` macro generates variant-for-variant conversions between the
foreign enumeration (`RFC_RC`, `RFC_ERROR_GROUP`) and the wrapper enumeration
(`ReturnCode`, `ErrorGroup`); both directions are the identity on the listed
variants, so a single Lean type represents both sides. -/

inductive ReturnCode where
  | Ok
  | CommunicationFailure
  | LogonFailure
  | ABAPRuntimeFailure
  | ABAPMessage
  | ABAPException
  | Closed
  | Canceled
  | Timeout
  | MemoryInsuffcient
  | VersionMismatch
  | InvalidProtocol
  | SerializationFailure
  | InvalidHandle
  | RetryCode
  | ExternalFailure
  | Executed
  | NotFound
  | NotSupported
  | IllegalState
  | InvalidParameter
  | CodepageConversionFailure
  | ConversionFailure
  | BufferTooSmall
  | TableMoveBOF
  | TableMoveEOF
  | StartSAPGUIFailure
  | ABAPClassException
  | UnknownError
  | AuthorizationFailure
  | AuthenticationFailure
  | CryptolibFailure
  | IOFailure
  | LockingFailure
  deriving DecidableEq

inductive ErrorGroup where
  | Ok
  | ABAPApplicationFailure
  | ABAPRuntimeFailure
  | LogonFailure
  | CommunicationFailure
  | ExternalRuntimeFailure
  | ExternalApplicationFailure
  | ExternalAuthorizationFailure
  | ExtenralAuthenticationFailure
  | CryptolibFailure
  | LockingFailure
  deriving DecidableEq

/-! ## The error record (src/src/protocol/types/error.rs) -/

/-- `RfcError` with every text field decoded to a codepoint list. -/
structure RfcError where
  code : ReturnCode
  group : ErrorGroup
  key : List Nat
  message : List Nat
  abapMsgClass : List Nat
  abapMsgType : List Nat
  abapMsgNumber : List Nat
  abapMsgV1 : List Nat
  abapMsgV2 : List Nat
  abapMsgV3 : List Nat
  abapMsgV4 : List Nat
  deriving DecidableEq

/-- `RfcError::default()`: `Ok` code and group, all text fields empty. -/
def RfcError.default : RfcError :=
  ⟨.Ok, .Ok, [], [], [], [], [], [], [], [], []⟩

/-- The error record produced by a failing foreign call whose
`RFC_ERROR_INFO` carries the given return code (text details elided). -/
def mkForeignError (code : ReturnCode) : RfcError :=
  { RfcError.default with code := code }

/-! ## The Unicode codec (src/src/protocol/uc_str.rs)

`SAP_UC` is a 16-bit fixed-width code unit.  A Unicode codepoint is
representable in the foreign encoding as a single unit exactly when it lies
in the Basic Multilingual Plane and is not a surrogate. -/

def representable (c : Nat) : Bool :=
  c < 65536 && !(55296 ≤ c && c < 57344)

/-- Number of UTF-8 bytes of a representable (BMP) codepoint. -/
def utf8CharLen (c : Nat) : Nat :=
  if c < 128 then 1 else if c < 2048 then 2 else 3

/-- Number of UTF-8 bytes of a codepoint list. -/
def utf8Len (s : List Nat) : Nat :=
  (s.map utf8CharLen).sum

/-- Modelled from the spec: the C helper `strnlenU16` (declared in the
generated bindings, not part of src/) returns the number of code units
before the first NUL, capped by the buffer length. -/
def strnlenModel (uc : List Nat) : Nat :=
  (uc.takeWhile (fun c => c != 0)).length

/-- The code units of a buffer before the first NUL terminator. -/
def ucContent (uc : List Nat) : List Nat :=
  uc.takeWhile (fun c => c != 0)

/-- Outcome of the foreign UTF-8 → SAP_UC conversion. -/
inductive UCConv where
  | ok (newBuf : List Nat) (resultLen : Nat)
  | fail (code : ReturnCode) (required : Nat)
  deriving DecidableEq

/-- Modelled from the spec: the foreign entry point `RfcUTF8ToSAPUC`
converts a UTF-8 text into a fixed-capacity `SAP_UC` buffer and
NUL-terminates it, reporting success with the number of content units
written, a buffer-too-small signal with the required unit count, or a
conversion error for text the foreign encoding cannot represent.  The
capacity reaches the foreign call through a `c_uint`, hence the cast. -/
def RfcUTF8ToSAPUCm (s : List Nat) (target : List Nat) : UCConv :=
  let cap := target.length % 4294967296
  if s.all representable then
    if s.length + 1 ≤ cap then
      .ok (s ++ 0 :: target.drop (s.length + 1)) s.length
    else
      .fail .BufferTooSmall (s.length + 1)
  else
    .fail .ConversionFailure cap

/-- `UCStr::write`: encode `s` into the buffer `target`; returns the new
buffer contents together with the result.  On any non-OK return code the
error record is returned and the buffer is unchanged. -/
def UCStr.write (target s : List Nat) : List Nat × Except RfcError Nat :=
  match RfcUTF8ToSAPUCm s target with
  | .ok buf len => (buf, .ok len)
  | .fail c _ => (target, .error (mkForeignError c))

/-- `UCStr::write_without_nul`: encode into a scratch buffer one unit larger
than the target and copy only the content portion back. -/
def UCStr.writeWithoutNul (target s : List Nat) : List Nat × Except RfcError Nat :=
  let tmp := List.replicate (target.length + 1) 0
  match UCStr.write tmp s with
  | (tmpNew, .ok len) => (tmpNew.take target.length, .ok len)
  | (_, .error e) => (target, .error e)

/-- Outcome of the foreign SAP_UC → UTF-8 conversion. -/
inductive U8Conv where
  | ok (s : List Nat)
  | fail (code : ReturnCode) (newBufferLen : Nat)
  deriving DecidableEq

/-- Modelled from the spec: the foreign entry point `RfcSAPUCToUTF8`
converts `source` (a unit sequence) into a UTF-8 buffer of `cap` bytes.
It succeeds when the buffer holds the UTF-8 rendering, reports
buffer-too-small with the required byte count otherwise, and reports a
codepage conversion error (leaving the reported length at the passed
capacity) when the unit sequence is not valid in the foreign encoding
(e.g. a lone surrogate). -/
def RfcSAPUCToUTF8m (source : List Nat) (cap : Nat) : U8Conv :=
  if source.all representable then
    if utf8Len source ≤ cap then .ok source
    else .fail .BufferTooSmall (utf8Len source)
  else
    .fail .CodepageConversionFailure cap

/-- `sap_uc_to_string_with_len`: decode the units before the first NUL of
`uc` into UTF-8, starting with a buffer of `len` bytes.  On any non-OK
return code the function calls itself again with the buffer length the
foreign call reported; the Rust recursion is unbounded, so the embedding
takes the maximal number of conversion attempts as fuel and returns `none`
when the attempts are exhausted. -/
def sapUcToStringWithLen : Nat → List Nat → Nat → Option (List Nat)
  | 0, _, _ => none
  | fuel + 1, uc, len =>
    match RfcSAPUCToUTF8m (uc.take (strnlenModel uc)) (len % 4294967296) with
    | .ok s => some s
    | .fail _ newLen => sapUcToStringWithLen fuel uc newLen

/-- `UCStr::to_string_lossy`: decode a buffer, with the initial UTF-8
buffer size guessed as the buffer length. -/
def UCStr.toStringLossy (fuel : Nat) (uc : List Nat) : Option (List Nat) :=
  sapUcToStringWithLen fuel uc uc.length

/-! ### Helper lemmas about the codec -/

theorem utf8Len_le_three (s : List Nat) : utf8Len s ≤ 3 * s.length := by
  induction s with
  | nil => simp [utf8Len]
  | cons c r ih =>
    have h : utf8CharLen c ≤ 3 := by
      unfold utf8CharLen; split <;> [omega; split <;> omega]
    simp only [utf8Len, List.map_cons, List.sum_cons, List.length_cons] at *
    omega

theorem ucWrite_success (s target : List Nat) (hr : s.all representable = true)
    (hlen : s.length + 1 ≤ target.length) (h32 : target.length < 4294967296) :
    UCStr.write target s = (s ++ 0 :: target.drop (s.length + 1), .ok s.length) := by
  unfold UCStr.write RfcUTF8ToSAPUCm
  rw [Nat.mod_eq_of_lt h32]
  simp only [hr, if_true, if_pos hlen]

theorem ucWrite_tooSmall (s target : List Nat) (hr : s.all representable = true)
    (hlen : target.length < s.length + 1) (h32 : target.length < 4294967296) :
    UCStr.write target s = (target, .error (mkForeignError .BufferTooSmall)) := by
  unfold UCStr.write RfcUTF8ToSAPUCm
  rw [Nat.mod_eq_of_lt h32]
  simp only [hr, if_true, if_neg (by omega : ¬s.length + 1 ≤ target.length)]

theorem writeWithoutNul_exact (s target : List Nat) (hr : s.all representable = true)
    (hlen : target.length = s.length) (h32 : target.length + 1 < 4294967296) :
    UCStr.writeWithoutNul target s = (s, .ok s.length) := by
  have h := ucWrite_success s (List.replicate (target.length + 1) 0) hr
    (by simp [hlen]) (by simpa using h32)
  unfold UCStr.writeWithoutNul
  simp only [h]
  have hdrop : List.drop (s.length + 1) (List.replicate (target.length + 1) (0 : Nat)) = [] :=
    List.drop_eq_nil_of_le (by simp [hlen])
  rw [hdrop, hlen]
  have htake : (s ++ [0]).take s.length = s := List.take_left s [0]
  simp [htake]

/-! ## The type model (src/src/protocol/enums.rs, types/type_description.rs)

`Type` is the tagged union of field types; composite variants reference a
type description.  A foreign type description handle is embedded as the
state it denotes: the ordered field list plus the running byte lengths last
set through `RfcSetTypeLength`.  A stored `RFC_FIELD_DESC` keeps the field
type as the `Ty` value its tag/handle pair reconstructs to, together with
the numeric layout fields. -/

mutual

inductive Ty where
  | Char (len : Nat)
  | Date
  | BCD (len decimals : Nat)
  | Time
  | Byte (len : Nat)
  | Table (t : TypeDescState)
  | Num (len : Nat)
  | Float
  | Int
  | Int2
  | Int1
  | Null
  | ABAPObject
  | Structure (t : TypeDescState)
  | DecF16
  | DecF34
  | XMLData (len : Nat)
  | String
  | XString
  | Int8
  | UTCLong
  | UTCSecond
  | UTCMinute
  | DTDay
  | DTWeek
  | DTMonth
  | TSecond
  | TMinute
  | CDay
  | Box
  | GenericBox

inductive FieldDescState where
  | mk (name : List Nat) (fieldType : Ty)
      (nucLength nucOffset ucLength ucOffset decimals : Nat)

inductive TypeDescState where
  | mk (fields : List FieldDescState) (nucLength ucLength : Nat)

end

def FieldDescState.name : FieldDescState → List Nat
  | .mk n _ _ _ _ _ _ => n

def FieldDescState.fieldType : FieldDescState → Ty
  | .mk _ t _ _ _ _ _ => t

def FieldDescState.nucLength : FieldDescState → Nat
  | .mk _ _ l _ _ _ _ => l

def FieldDescState.nucOffset : FieldDescState → Nat
  | .mk _ _ _ o _ _ _ => o

def FieldDescState.ucLength : FieldDescState → Nat
  | .mk _ _ _ _ l _ _ => l

def FieldDescState.ucOffset : FieldDescState → Nat
  | .mk _ _ _ _ _ o _ => o

def FieldDescState.decimals : FieldDescState → Nat
  | .mk _ _ _ _ _ _ d => d

def TypeDescState.fields : TypeDescState → List FieldDescState
  | .mk fs _ _ => fs

def TypeDescState.nucLength : TypeDescState → Nat
  | .mk _ n _ => n

def TypeDescState.ucLength : TypeDescState → Nat
  | .mk _ _ u => u

mutual

/-- `Type::inlineable`: pointer-class types are never inlineable; composite
types are inlineable iff their description is; everything else is. -/
def Ty.inlineable : Ty → Bool
  | .String => false
  | .XString => false
  | .ABAPObject => false
  | .Box => false
  | .GenericBox => false
  | .Structure t => TypeDescState.inlineable t
  | .Table t => TypeDescState.inlineable t
  | _ => true

/-- `TypeDesc::inlineable`: every field type must itself be inlineable. -/
def TypeDescState.inlineable : TypeDescState → Bool
  | .mk fields _ _ => fieldsInlineable fields

def fieldsInlineable : List FieldDescState → Bool
  | [] => true
  | .mk _ t _ _ _ _ _ :: rest => Ty.inlineable t && fieldsInlineable rest

end

/-- `Type::len`: the per-variant pair (non-unicode length, unicode length).
The unicode length of `Char`/`BCD`/`Num` is `len * 2` in `u32` arithmetic,
hence the wrap at `2 ^ 32`. -/
def Ty.len : Ty → Nat × Nat
  | .Structure t | .Table t =>
    if TypeDescState.inlineable t then (t.nucLength, t.ucLength) else (8, 8)
  | .CDay => (2, 2)
  | .Date => (8, 16)
  | .DTDay | .DTWeek | .DTMonth => (4, 4)
  | .DecF16 => (8, 8)
  | .DecF34 => (16, 16)
  | .Float => (8, 8)
  | .Int => (4, 4)
  | .Int1 => (1, 1)
  | .Int2 => (2, 2)
  | .Int8 => (8, 8)
  | .Time => (6, 12)
  | .TSecond => (4, 4)
  | .TMinute => (2, 2)
  | .String | .XString | .ABAPObject | .Box | .GenericBox => (8, 8)
  | .Char len | .BCD len _ | .Num len => (len, len * 2 % 4294967296)
  | .XMLData len | .Byte len => (len, len)
  | .UTCLong | .UTCSecond | .UTCMinute => (8, 8)
  | .Null => (0, 0)

/-- `Type::decimals`: the decimal count of the packed-decimal variant,
zero for every other variant. -/
def Ty.decimals : Ty → Nat
  | .BCD _ d => d
  | _ => 0

/-- `Type::type_description`. -/
def Ty.typeDescription : Ty → Option TypeDescState
  | .Structure t => some t
  | .Table t => some t
  | _ => none

/-! ## `Type::from_rfc_type` (src/src/protocol/enums.rs) -/

/-- The foreign `RFCTYPE` enumeration. -/
inductive RfcTypeCode where
  | CHAR
  | DATE
  | BCD
  | TIME
  | BYTE
  | TABLE
  | NUM
  | FLOAT
  | INT
  | INT2
  | INT1
  | NULL
  | ABAPOBJECT
  | STRUCTURE
  | DECF16
  | DECF34
  | XMLDATA
  | STRING
  | XSTRING
  | INT8
  | UTCLONG
  | UTCSECOND
  | UTCMINUTE
  | DTDAY
  | DTWEEK
  | DTMONTH
  | TSECOND
  | TMINUTE
  | CDAY
  | BOX
  | GENERIC_BOX
  | maxValue
  deriving DecidableEq

/-- Result of a Rust computation that may panic. -/
inductive Panics (α : Type) where
  | panics (msg : String)
  | ret (a : α)

def Panics.isPanic {α : Type} : Panics α → Bool
  | .panics _ => true
  | .ret _ => false

/-- `Type::from_rfc_type`: rebuild a `Type` value from the foreign type tag,
length, decimal count and optional type description reference; panics for a
composite tag without a description. -/
def Ty.fromRfcType (rfcType : RfcTypeCode) (length decimals : Nat)
    (typeDescription : Option TypeDescState) : Panics Ty :=
  match rfcType with
  | .CHAR => .ret (.Char length)
  | .DATE => .ret .Date
  | .BCD => .ret (.BCD length decimals)
  | .TIME => .ret .Time
  | .BYTE => .ret (.Byte length)
  | .TABLE =>
    match typeDescription with
    | none => .panics "Table type without type description is not allowed!"
    | some t => .ret (.Table t)
  | .NUM => .ret (.Num length)
  | .FLOAT => .ret .Float
  | .INT => .ret .Int
  | .INT2 => .ret .Int2
  | .INT1 => .ret .Int1
  | .NULL => .ret .Null
  | .ABAPOBJECT => .ret .ABAPObject
  | .STRUCTURE =>
    match typeDescription with
    | none => .panics "Structure type without type description is not allowed!"
    | some t => .ret (.Structure t)
  | .DECF16 => .ret .DecF16
  | .DECF34 => .ret .DecF34
  | .XMLDATA => .ret (.XMLData length)
  | .STRING => .ret .String
  | .XSTRING => .ret .XString
  | .INT8 => .ret .Int8
  | .UTCLONG => .ret .UTCLong
  | .UTCSECOND => .ret .UTCSecond
  | .UTCMINUTE => .ret .UTCMinute
  | .DTDAY => .ret .DTDay
  | .DTWEEK => .ret .DTWeek
  | .DTMONTH => .ret .DTMonth
  | .TSECOND => .ret .TSecond
  | .TMINUTE => .ret .TMinute
  | .CDAY => .ret .CDay
  | .BOX => .ret .Box
  | .GENERIC_BOX => .ret .GenericBox
  | .maxValue => .ret .Null

/-! ## Building a type description (src/src/protocol/types/type_description.rs) -/

/-- Capacity of `RFC_ABAP_NAME` in code units: 30 characters plus the NUL
terminator.  Modelled from the spec: the buffer type comes from the
generated foreign bindings. -/
def abapNameCapacity : Nat := 31

/-- `(x as f64 / y as f64).ceil() as u32` for `u32` inputs.  For a nonzero
divisor the `f64` division of integers below `2 ^ 32` is exact enough that
the ceiling equals the integer ceiling division; `0.0 / 0.0` is NaN and
casts to 0, and a positive value divided by zero is infinity and saturates
to `u32::MAX`. -/
def f64CeilDivU32 (num den : Nat) : Nat :=
  if den = 0 then (if num = 0 then 0 else 4294967295)
  else (num + den - 1) / den

/-- Modelled from the spec: `RfcCreateTypeDesc` yields a fresh description
with no fields and zero lengths. -/
def TypeDescription.new : TypeDescState := .mk [] 0 0

/-- `TypeDescription::add_field`: compute the new field's offsets from the
description's current running lengths, write the field name into an
`RFC_ABAP_NAME` buffer (propagating a conversion failure), append the field
(`RfcAddTypeField`) and set the description lengths to the computed offsets
(`RfcSetTypeLength`). -/
def TypeDescription.addField (st : TypeDescState) (name : List Nat)
    (fieldType : Ty) : Except RfcError TypeDescState :=
  let fieldLens := fieldType.len
  let nucOffset := f64CeilDivU32 st.nucLength fieldLens.1
  let ucOffset := f64CeilDivU32 st.ucLength fieldLens.2
  match UCStr.write (List.replicate abapNameCapacity 0) name with
  | (_, .error e) => .error e
  | (written, .ok _) =>
    .ok (TypeDescState.mk
      (st.fields ++ [FieldDescState.mk written fieldType fieldLens.1 nucOffset
        fieldLens.2 ucOffset fieldType.decimals])
      nucOffset ucOffset)

/-! ## Name-based lookup on a type description -/

/-- `UCString::from`: convert UTF-8 text into an owned NUL-terminated unit
vector; `string_to_sap_uc` retries a too-small signal with the reported
length and panics on any other conversion error. -/
def UCString.fromText (s : List Nat) : Panics (List Nat) :=
  if s.all representable then .ret (s ++ [0])
  else .panics "Unexpected error while converting the string to SAP unicode"

/-- Modelled from the spec: `RfcGetFieldDescByName` looks up a field by
name; a miss (a name never added, including an over-long name that cannot
match any stored field) is signalled with `RFC_NOT_FOUND` as a normal
outcome. -/
def RfcGetFieldDescByNamem (st : TypeDescState) (ucName : List Nat) :
    Except ReturnCode FieldDescState :=
  match st.fields.find? (fun f => ucContent f.name == ucContent ucName) with
  | some f => .ok f
  | none => .error .NotFound

/-- `TypeDesc::get`: field lookup by name; `NotFound` becomes an absent
result, any other failure panics. -/
def TypeDesc.get (st : TypeDescState) (name : List Nat) :
    Panics (Option FieldDescState) :=
  match UCString.fromText name with
  | .panics m => .panics m
  | .ret ucName =>
    match RfcGetFieldDescByNamem st ucName with
    | .ok f => .ret (some f)
    | .error .NotFound => .ret none
    | .error _ => .panics "Unknown error while getting field from type"

/-! ## Function descriptions (src/src/protocol/function_description.rs,
types/parameter_description.rs, types/exception.rs) -/

inductive ParameterDirection where
  | Import
  | Export
  | Changing
  | Tables
  deriving DecidableEq

/-- The stored `RFC_PARAMETER_DESC` of a parameter. -/
structure ParamDescState where
  name : List Nat
  direction : ParameterDirection
  nucLength : Nat
  ucLength : Nat
  decimals : Nat
  parameterType : Ty
  defaultValue : List Nat
  parameterText : List Nat
  optional : Bool

/-- The stored `RFC_EXCEPTION_DESC` of an exception. -/
structure ExcDescState where
  key : List Nat
  message : List Nat
  deriving DecidableEq

/-- The state behind a function description handle: the ordered parameter
and exception collections. -/
structure FuncDescState where
  params : List ParamDescState
  excs : List ExcDescState

/-- Capacity of `RFC_PARAMETER_DEFVALUE` in code units.  Modelled from the
spec: the buffer type comes from the generated foreign bindings. -/
def parameterDefvalueCapacity : Nat := 31

/-- `ParameterDescription::new`: build the stored parameter record, writing
the name into an `RFC_ABAP_NAME` buffer (propagating a failure). -/
def ParameterDescription.new (name : List Nat) (direction : ParameterDirection)
    (parameterType : Ty) : Except RfcError ParamDescState :=
  let lens := parameterType.len
  match UCStr.write (List.replicate abapNameCapacity 0) name with
  | (_, .error e) => .error e
  | (written, .ok _) =>
    .ok { name := written
          direction := direction
          nucLength := lens.1
          ucLength := lens.2
          decimals := parameterType.decimals
          parameterType := parameterType
          defaultValue := List.replicate parameterDefvalueCapacity 0
          parameterText := List.replicate 80 0
          optional := false }

/-- Modelled from the spec: `RfcCreateFunctionDesc` yields a fresh, empty
function description. -/
def FunctionDescription.new : FuncDescState := ⟨[], []⟩

/-- `FunctionDescription::add_parameter` (`RfcAddParameter` appends the
parameter; modelled from the spec as succeeding). -/
def FunctionDescription.addParameter (fd : FuncDescState) (p : ParamDescState) :
    FuncDescState :=
  { fd with params := fd.params ++ [p] }

/-- `FunctionDescription::add_exception` (`RfcAddException` appends the
exception; modelled from the spec as succeeding). -/
def FunctionDescription.addException (fd : FuncDescState) (e : ExcDescState) :
    FuncDescState :=
  { fd with excs := fd.excs ++ [e] }

/-- Modelled from the spec: `RfcGetParameterDescByName` looks up a
parameter by name; a miss (a name never added, including an over-long
name) is signalled with `RFC_INVALID_PARAMETER` as a normal outcome. -/
def RfcGetParameterDescByNamem (fd : FuncDescState) (ucName : List Nat) :
    Except ReturnCode ParamDescState :=
  match fd.params.find? (fun p => ucContent p.name == ucContent ucName) with
  | some p => .ok p
  | none => .error .InvalidParameter

/-- `FuncDesc::get_parameter_by_name`: `InvalidParameter` becomes an absent
result, any other failure panics. -/
def FuncDesc.getParameterByName (fd : FuncDescState) (name : List Nat) :
    Panics (Option ParamDescState) :=
  match UCString.fromText name with
  | .panics m => .panics m
  | .ret ucName =>
    match RfcGetParameterDescByNamem fd ucName with
    | .ok p => .ret (some p)
    | .error .InvalidParameter => .ret none
    | .error _ => .panics "Error getting parameter from function"

/-- Modelled from the spec: `RfcGetExceptionDescByName` looks up an
exception by its key; a miss is signalled with `RFC_INVALID_PARAMETER`. -/
def RfcGetExceptionDescByNamem (fd : FuncDescState) (ucName : List Nat) :
    Except ReturnCode ExcDescState :=
  match fd.excs.find? (fun e => ucContent e.key == ucContent ucName) with
  | some e => .ok e
  | none => .error .InvalidParameter

/-- `FuncDesc::get_exception_by_name`. -/
def FuncDesc.getExceptionByName (fd : FuncDescState) (name : List Nat) :
    Panics (Option ExcDescState) :=
  match UCString.fromText name with
  | .panics m => .panics m
  | .ret ucName =>
    match RfcGetExceptionDescByNamem fd ucName with
    | .ok e => .ret (some e)
    | .error .InvalidParameter => .ret none
    | .error _ => .panics "Error getting exception from function"

/-- `FuncDesc::parameter_count` (`RfcGetParameterCount`, modelled from the
spec as the number of parameters added). -/
def FuncDesc.parameterCount (fd : FuncDescState) : Nat := fd.params.length

/-- Modelled from the spec: `RfcGetParameterDescByIndex` returns the
parameter at the index, `RFC_INVALID_PARAMETER` when out of range. -/
def RfcGetParameterDescByIndexm (fd : FuncDescState) (idx : Nat) :
    Except ReturnCode ParamDescState :=
  match fd.params[idx]? with
  | some p => .ok p
  | none => .error .InvalidParameter

/-- `FuncDesc::get_parameter_by_index`: out-of-range indices yield an
absent result before the foreign call (the NWRFC libs do not handle them
correctly); `InvalidParameter` becomes an absent result; any other failure
panics. -/
def FuncDesc.getParameterByIndex (fd : FuncDescState) (idx : Nat) :
    Panics (Option ParamDescState) :=
  if FuncDesc.parameterCount fd ≤ idx then .ret none
  else
    match RfcGetParameterDescByIndexm fd idx with
    | .ok p => .ret (some p)
    | .error .InvalidParameter => .ret none
    | .error _ => .panics "Error getting parameter from function"

/-- The value carried by `FuncDesc::get_parameter_by_index` (which never
panics, see `getParameterByIndex_ret`). -/
def FuncDesc.getParameterByIndexO (fd : FuncDescState) (idx : Nat) :
    Option ParamDescState :=
  fd.params[idx]?

theorem getParameterByIndex_ret (fd : FuncDescState) (idx : Nat) :
    FuncDesc.getParameterByIndex fd idx =
      .ret (FuncDesc.getParameterByIndexO fd idx) := by
  unfold FuncDesc.getParameterByIndex FuncDesc.getParameterByIndexO
    RfcGetParameterDescByIndexm FuncDesc.parameterCount
  by_cases h : fd.params.length ≤ idx
  · simp [h, List.getElem?_eq_none h]
  · simp only [if_neg h]
    cases hx : fd.params[idx]? with
    | none => simp
    | some p => simp

theorem getParameterByIndexO_some_lt {fd : FuncDescState} {idx : Nat}
    {q : ParamDescState} (h : FuncDesc.getParameterByIndexO fd idx = some q) :
    idx < fd.params.length := by
  by_contra hc
  rw [FuncDesc.getParameterByIndexO, List.getElem?_eq_none (by omega)] at h
  cases h

/-- `ParameterIterator::next`: query get-by-index at the current position,
advance the position, skip entries whose direction differs from the
requested one, and stop at the first absent result.  The iterator state is
its position; `next` returns the yielded parameter and the new position. -/
def ParameterIterator.next (fd : FuncDescState) (dir : ParameterDirection)
    (index : Nat) : Option (ParamDescState × Nat) :=
  match h : FuncDesc.getParameterByIndexO fd index with
  | none => none
  | some p =>
    if p.direction = dir then some (p, index + 1)
    else ParameterIterator.next fd dir (index + 1)
termination_by fd.params.length - index
decreasing_by
  have := getParameterByIndexO_some_lt h
  omega

theorem ParameterIterator.next_bounds (fd : FuncDescState)
    (dir : ParameterDirection) :
    ∀ index p j, ParameterIterator.next fd dir index = some (p, j) →
      index < j ∧ j ≤ fd.params.length := by
  have main : ∀ n index p j, fd.params.length - index = n →
      ParameterIterator.next fd dir index = some (p, j) →
      index < j ∧ j ≤ fd.params.length := by
    intro n
    induction n using Nat.strong_induction_on with
    | _ n ih =>
      intro index p j hn h
      rw [ParameterIterator.next] at h
      split at h
      case _ => cases h
      case _ q hx =>
        have hlt := getParameterByIndexO_some_lt hx
        split at h
        case _ =>
          cases h
          omega
        case _ =>
          have := ih (fd.params.length - (index + 1)) (by omega) (index + 1) p j rfl h
          omega
  exact fun index p j h => main (fd.params.length - index) index p j rfl h

/-- The finite sequence produced by iterating `ParameterIterator::next`
from a given position. -/
def ParameterIterator.toList (fd : FuncDescState) (dir : ParameterDirection)
    (index : Nat) : List ParamDescState :=
  match h : ParameterIterator.next fd dir index with
  | none => []
  | some (p, j) => p :: ParameterIterator.toList fd dir j
termination_by fd.params.length - index
decreasing_by
  have := ParameterIterator.next_bounds fd dir index p j h
  omega

theorem ParameterIterator.toList_eq_of_next_eq (fd : FuncDescState)
    (dir : ParameterDirection) (i j : Nat)
    (h : ParameterIterator.next fd dir i = ParameterIterator.next fd dir j) :
    ParameterIterator.toList fd dir i = ParameterIterator.toList fd dir j := by
  rw [ParameterIterator.toList, ParameterIterator.toList, h]

theorem ParameterIterator.toList_filter (fd : FuncDescState)
    (dir : ParameterDirection) :
    ∀ index, ParameterIterator.toList fd dir index =
      (fd.params.drop index).filter (fun p => p.direction == dir) := by
  have main : ∀ n index, fd.params.length - index = n →
      ParameterIterator.toList fd dir index =
        (fd.params.drop index).filter (fun p => p.direction == dir) := by
    intro n
    induction n using Nat.strong_induction_on with
    | _ n ih =>
      intro index hn
      cases hx : fd.params[index]? with
      | none =>
        have hge : fd.params.length ≤ index := by
          by_contra hc
          rw [List.getElem?_eq_getElem (by omega)] at hx
          cases hx
        have hnext : ParameterIterator.next fd dir index = none := by
          rw [ParameterIterator.next]
          split
          · rfl
          case _ q hq =>
            rw [FuncDesc.getParameterByIndexO, hx] at hq
            cases hq
        rw [ParameterIterator.toList, hnext, List.drop_eq_nil_of_le hge]
        simp
      | some p =>
        have hlt : index < fd.params.length := by
          by_contra hc
          rw [List.getElem?_eq_none (by omega)] at hx
          cases hx
        have hdrop : fd.params.drop index = p :: fd.params.drop (index + 1) := by
          rw [List.drop_eq_getElem_cons hlt]
          have h' := hx
          rw [List.getElem?_eq_getElem hlt] at h'
          injection h' with h'
          rw [h']
        by_cases hdir : p.direction = dir
        · have hnext : ParameterIterator.next fd dir index = some (p, index + 1) := by
            rw [ParameterIterator.next]
            split
            case _ hq =>
              rw [FuncDesc.getParameterByIndexO, hx] at hq
              cases hq
            case _ q hq =>
              rw [FuncDesc.getParameterByIndexO, hx] at hq
              injection hq with hq
              subst hq
              rw [if_pos hdir]
          rw [ParameterIterator.toList, hnext]
          have ihs := ih (fd.params.length - (index + 1)) (by omega) (index + 1) rfl
          simp only [ihs, hdrop, List.filter_cons]
          simp [hdir]
        · have hnext : ParameterIterator.next fd dir index =
              ParameterIterator.next fd dir (index + 1) := by
            conv_lhs => rw [ParameterIterator.next]
            split
            case _ hq =>
              rw [FuncDesc.getParameterByIndexO, hx] at hq
              cases hq
            case _ q hq =>
              rw [FuncDesc.getParameterByIndexO, hx] at hq
              injection hq with hq
              subst hq
              rw [if_neg hdir]
          rw [ParameterIterator.toList_eq_of_next_eq fd dir index (index + 1) hnext]
          have ihs := ih (fd.params.length - (index + 1)) (by omega) (index + 1) rfl
          simp only [ihs, hdrop, List.filter_cons]
          simp [hdir]
  exact fun index => main (fd.params.length - index) index rfl

/-! ## Dates (src/src/protocol/types/date_time.rs) -/

/-- Decimal digit expansion (ASCII codes, most significant first), the
rendering produced by Rust's `to_string`/`format!` for naturals.  The
auxiliary fuel makes the recursion structural. -/
def natDigitsAux : Nat → Nat → List Nat
  | 0, _ => []
  | fuel + 1, n =>
    if n < 10 then [48 + n] else natDigitsAux fuel (n / 10) ++ [48 + n % 10]

def natDigits (n : Nat) : List Nat := natDigitsAux (n + 1) n

/-- `format!` with a zero-padded minimum width. -/
def padZeros (width n : Nat) : List Nat :=
  List.replicate (width - (natDigits n).length) 48 ++ natDigits n

theorem natDigitsAux_length : ∀ fuel n k, n < fuel → n < 10 ^ (k + 1) →
    (natDigitsAux fuel n).length ≤ k + 1 := by
  intro fuel
  induction fuel with
  | zero => omega
  | succ fuel ih =>
    intro n k hfuel hk
    unfold natDigitsAux
    by_cases h : n < 10
    · simp [h]
    · rw [if_neg h]
      have hk1 : 1 ≤ k := by
        by_contra hc
        have : k = 0 := by omega
        subst this
        simp at hk
        omega
      obtain ⟨k', rfl⟩ : ∃ k', k = k' + 1 := ⟨k - 1, by omega⟩
      have hdivfuel : n / 10 < fuel := by
        have h1 : n / 10 < n := Nat.div_lt_self (by omega) (by omega)
        omega
      have hdivpow : n / 10 < 10 ^ (k' + 1) := by
        rw [Nat.div_lt_iff_lt_mul (by omega)]
        calc n < 10 ^ (k' + 1 + 1) := hk
        _ = 10 ^ (k' + 1) * 10 := by ring
      have := ih (n / 10) k' hdivfuel hdivpow
      simp only [List.length_append, List.length_cons, List.length_nil]
      omega

theorem natDigits_length {n k : Nat} (h : n < 10 ^ (k + 1)) :
    (natDigits n).length ≤ k + 1 :=
  natDigitsAux_length (n + 1) n k (by omega) h

theorem natDigitsAux_mem : ∀ fuel n c, c ∈ natDigitsAux fuel n →
    48 ≤ c ∧ c ≤ 57 := by
  intro fuel
  induction fuel with
  | zero => intro n c hc; simp [natDigitsAux] at hc
  | succ fuel ih =>
    intro n c hc
    unfold natDigitsAux at hc
    by_cases h : n < 10
    · rw [if_pos h] at hc
      simp at hc
      omega
    · rw [if_neg h] at hc
      rw [List.mem_append] at hc
      cases hc with
      | inl hc => exact ih (n / 10) c hc
      | inr hc =>
        simp at hc
        have : n % 10 < 10 := Nat.mod_lt n (by omega)
        omega

theorem padZeros_length {width n : Nat} (h : (natDigits n).length ≤ width) :
    (padZeros width n).length = width := by
  simp [padZeros]
  omega

theorem padZeros_mem {width n c : Nat} (h : c ∈ padZeros width n) :
    48 ≤ c ∧ c ≤ 57 := by
  rw [padZeros, List.mem_append] at h
  cases h with
  | inl h => have := List.eq_of_mem_replicate h; omega
  | inr h => exact natDigitsAux_mem (n + 1) n c h

inductive InvalidDateTypes where
  | MonthOutOfRange
  | DayOutOfRange
  | InvalidYear
  | InvalidMonth
  | InvalidDay
  deriving DecidableEq

structure InvalidDateError where
  errorType : InvalidDateTypes
  value : List Nat
  maxValue : Nat
  deriving DecidableEq

/-- A leap year is divisible by 4 and either not divisible by 100 or
divisible by 400. -/
def isLeapYear (year : Nat) : Bool :=
  year % 4 == 0 && (year % 100 != 0 || year % 400 == 0)

/-- Capacity of `RFC_DATE` in code units (`YYYYMMDD`).  Modelled from the
spec: the buffer type comes from the generated foreign bindings. -/
def rfcDateCapacity : Nat := 8

/-- The tail of `Date::new` after validation: format `YYYYMMDD` and write
it into a fresh `RFC_DATE` with `write_without_nul`, panicking via
`unwrap` if the write fails. -/
def Date.writeDate (year month day : Nat) :
    Panics (Except InvalidDateError (List Nat)) :=
  let s := padZeros 4 year ++ padZeros 2 month ++ padZeros 2 day
  match UCStr.writeWithoutNul (List.replicate rfcDateCapacity 0) s with
  | (buf, .ok _) => .ret (.ok buf)
  | (_, .error _) => .panics "called unwrap on an Err value"

/-- `Date::new`: validate the month (1..=12), then the day — for months
other than February even months allow 1..=30 and odd months 1..=31; for
February the bound is 29 in leap years and 28 otherwise — and finally
write the formatted date. -/
def Date.new (year month day : Nat) :
    Panics (Except InvalidDateError (List Nat)) :=
  if month < 1 ∨ 12 < month then
    .ret (.error ⟨.MonthOutOfRange, natDigits month, 12⟩)
  else if month ≠ 2 then
    if month % 2 = 0 ∧ (day < 1 ∨ 30 < day) then
      .ret (.error ⟨.DayOutOfRange, natDigits day, 30⟩)
    else if day < 1 ∨ 31 < day then
      .ret (.error ⟨.DayOutOfRange, natDigits day, 31⟩)
    else Date.writeDate year month day
  else if isLeapYear year then
    if day < 1 ∨ 29 < day then
      .ret (.error ⟨.DayOutOfRange, natDigits day, 29⟩)
    else Date.writeDate year month day
  else
    if day < 1 ∨ 28 < day then
      .ret (.error ⟨.DayOutOfRange, natDigits day, 28⟩)
    else Date.writeDate year month day

/-- Whether `Date::new` returns successfully. -/
def Date.isOkNew (year month day : Nat) : Bool :=
  match Date.new year month day with
  | .ret (.ok _) => true
  | _ => false

/-- The `max_value` of the day-out-of-range error returned by `Date::new`,
if any. -/
def Date.dayErrNew (year month day : Nat) : Option Nat :=
  match Date.new year month day with
  | .ret (.error e) =>
    if e.errorType = .DayOutOfRange then some e.maxValue else none
  | _ => none

theorem writeDate_ok (y m d : Nat) (hy : y ≤ 9999) (hm : m ≤ 99) (hd : d ≤ 99) :
    Date.writeDate y m d =
      .ret (.ok (padZeros 4 y ++ padZeros 2 m ++ padZeros 2 d)) := by
  have hylen : (natDigits y).length ≤ 4 := natDigits_length (k := 3) (by omega)
  have hmlen : (natDigits m).length ≤ 2 := natDigits_length (k := 1) (by omega)
  have hdlen : (natDigits d).length ≤ 2 := natDigits_length (k := 1) (by omega)
  have hlen : (padZeros 4 y ++ padZeros 2 m ++ padZeros 2 d).length = 8 := by
    simp [padZeros_length hylen, padZeros_length hmlen, padZeros_length hdlen]
  have hrep : (padZeros 4 y ++ padZeros 2 m ++ padZeros 2 d).all representable = true := by
    rw [List.all_eq_true]
    intro c hc
    have hb : 48 ≤ c ∧ c ≤ 57 := by
      rw [List.mem_append] at hc
      cases hc with
      | inl hc =>
        rw [List.mem_append] at hc
        cases hc with
        | inl hc => exact padZeros_mem hc
        | inr hc => exact padZeros_mem hc
      | inr hc => exact padZeros_mem hc
    simp [representable]
    omega
  have hw := writeWithoutNul_exact (padZeros 4 y ++ padZeros 2 m ++ padZeros 2 d)
    (List.replicate rfcDateCapacity 0) hrep
    (by simp only [List.length_replicate, rfcDateCapacity]; exact hlen.symm)
    (by simp [rfcDateCapacity])
  unfold Date.writeDate
  simp only [hw]

/-! ## The error record conversions (src/src/protocol/types/error.rs) -/

/-- Capacities of the `RFC_ERROR_INFO` text buffers in code units.
Modelled from the spec: the buffer sizes come from the generated foreign
bindings; the claims below depend only on each capacity being at least 2. -/
def keyCapacity : Nat := 128

def messageCapacity : Nat := 512

def msgClassCapacity : Nat := 21

def msgTypeCapacity : Nat := 2

def msgNumberCapacity : Nat := 4

def msgVCapacity : Nat := 52

/-- The foreign `RFC_ERROR_INFO` structure: code, group and nine text
buffers in the wide encoding. -/
structure RfcErrorInfo where
  code : ReturnCode
  group : ErrorGroup
  key : List Nat
  message : List Nat
  abapMsgClass : List Nat
  abapMsgType : List Nat
  abapMsgNumber : List Nat
  abapMsgV1 : List Nat
  abapMsgV2 : List Nat
  abapMsgV3 : List Nat
  abapMsgV4 : List Nat
  deriving DecidableEq

/-- `From<&RFC_ERROR_INFO> for RfcError`: decode every text buffer through
the codec.  The `message` field is decoded from `value.key`, exactly as in
the source (error.rs line 88).  `fuel` bounds the decoder's conversion
attempts; the conversions of code and group are variantwise identities. -/
def RfcError.fromInfo (fuel : Nat) (info : RfcErrorInfo) : Option RfcError := do
  let key ← UCStr.toStringLossy fuel info.key
  let message ← UCStr.toStringLossy fuel info.key
  let abapMsgClass ← UCStr.toStringLossy fuel info.abapMsgClass
  let abapMsgType ← UCStr.toStringLossy fuel info.abapMsgType
  let abapMsgNumber ← UCStr.toStringLossy fuel info.abapMsgNumber
  let abapMsgV1 ← UCStr.toStringLossy fuel info.abapMsgV1
  let abapMsgV2 ← UCStr.toStringLossy fuel info.abapMsgV2
  let abapMsgV3 ← UCStr.toStringLossy fuel info.abapMsgV3
  let abapMsgV4 ← UCStr.toStringLossy fuel info.abapMsgV4
  pure { code := info.code, group := info.group, key := key, message := message
         abapMsgClass := abapMsgClass, abapMsgType := abapMsgType
         abapMsgNumber := abapMsgNumber, abapMsgV1 := abapMsgV1
         abapMsgV2 := abapMsgV2, abapMsgV3 := abapMsgV3, abapMsgV4 := abapMsgV4 }

/-- Write one text field of an `RfcError` into a zeroed foreign buffer of
the given capacity. -/
def writeField (cap : Nat) (s : List Nat) : Except RfcError (List Nat) :=
  match UCStr.write (List.replicate cap 0) s with
  | (buf, .ok _) => .ok buf
  | (_, .error e) => .error e

/-- `TryFrom<&RfcError> for RFC_ERROR_INFO`: start from the default
(zeroed) structure, copy code and group, and encode each text field,
propagating the first failure. -/
def RfcErrorInfo.tryFromError (e : RfcError) : Except RfcError RfcErrorInfo := do
  let key ← writeField keyCapacity e.key
  let message ← writeField messageCapacity e.message
  let abapMsgClass ← writeField msgClassCapacity e.abapMsgClass
  let abapMsgType ← writeField msgTypeCapacity e.abapMsgType
  let abapMsgNumber ← writeField msgNumberCapacity e.abapMsgNumber
  let abapMsgV1 ← writeField msgVCapacity e.abapMsgV1
  let abapMsgV2 ← writeField msgVCapacity e.abapMsgV2
  let abapMsgV3 ← writeField msgVCapacity e.abapMsgV3
  let abapMsgV4 ← writeField msgVCapacity e.abapMsgV4
  pure { code := e.code, group := e.group, key := key, message := message
         abapMsgClass := abapMsgClass, abapMsgType := abapMsgType
         abapMsgNumber := abapMsgNumber, abapMsgV1 := abapMsgV1
         abapMsgV2 := abapMsgV2, abapMsgV3 := abapMsgV3, abapMsgV4 := abapMsgV4 }

/-! ## Concrete states used by the evaluation theorems -/

/-- Appending a `Char(1)` field named `A` to a fresh type description. -/
def c1FirstAdd : Except RfcError TypeDescState :=
  TypeDescription.addField TypeDescription.new [65] (Ty.Char 1)

/-- Appending a second `Char(1)` field named `B`. -/
def c1SecondAdd : Except RfcError TypeDescState :=
  match c1FirstAdd with
  | .ok st => TypeDescription.addField st [66] (Ty.Char 1)
  | .error e => .error e

/-- A foreign error structure with key `K` and message `M` (codes 75, 77),
all other text fields empty. -/
def c2Info : RfcErrorInfo :=
  { code := .ABAPRuntimeFailure
    group := .ABAPRuntimeFailure
    key := 75 :: List.replicate (keyCapacity - 1) 0
    message := 77 :: List.replicate (messageCapacity - 1) 0
    abapMsgClass := List.replicate msgClassCapacity 0
    abapMsgType := List.replicate msgTypeCapacity 0
    abapMsgNumber := List.replicate msgNumberCapacity 0
    abapMsgV1 := List.replicate msgVCapacity 0
    abapMsgV2 := List.replicate msgVCapacity 0
    abapMsgV3 := List.replicate msgVCapacity 0
    abapMsgV4 := List.replicate msgVCapacity 0 }

/-- The stored parameter record produced by
`ParameterDescription::new("T", Import, Char(1))`. -/
def c7Param : ParamDescState :=
  { name := 84 :: 0 :: List.replicate 29 0
    direction := .Import
    nucLength := 1
    ucLength := 2
    decimals := 0
    parameterType := Ty.Char 1
    defaultValue := List.replicate 31 0
    parameterText := List.replicate 80 0
    optional := false }

/-- The message text surviving the round trip
`RFC_ERROR_INFO → RfcError → RFC_ERROR_INFO` on `c2Info`. -/
def c2RoundTripMessage : Option (List Nat) :=
  match RfcError.fromInfo 2 c2Info with
  | some e =>
    match RfcErrorInfo.tryFromError e with
    | .ok info => some (ucContent info.message)
    | .error _ => none
  | none => none

/-! ## Further helper lemmas -/

theorem takeWhile_ne_append (l r : List Nat) (hl : ∀ a ∈ l, a ≠ 0) :
    (l ++ 0 :: r).takeWhile (fun c => c != 0) = l := by
  induction l with
  | nil => simp
  | cons a t ih =>
    have ha : (a != 0) = true := by
      have := hl a (by simp)
      simpa using this
    rw [List.cons_append, List.takeWhile_cons, ha]
    simp only [if_true]
    rw [ih (fun b hb => hl b (by simp [hb]))]

theorem ucContent_append_nul (name : List Nat) (hnul : (0 : Nat) ∉ name) :
    ucContent (name ++ [0]) = name := by
  rw [ucContent]
  exact takeWhile_ne_append name [] (fun a ha h0 => hnul (h0 ▸ ha))

theorem find?_none_of_all {α : Type} (p : α → Bool) (l : List α)
    (h : ∀ a ∈ l, p a = false) : l.find? p = none := by
  induction l with
  | nil => rfl
  | cons a t ih =>
    rw [List.find?_cons_of_neg _ (by simp [h a (by simp)])]
    exact ih (fun b hb => h b (by simp [hb]))

theorem find?_append_none {α : Type} (p : α → Bool) (l₁ l₂ : List α)
    (h : ∀ a ∈ l₁, p a = false) : (l₁ ++ l₂).find? p = l₂.find? p := by
  induction l₁ with
  | nil => simp
  | cons a t ih =>
    rw [List.cons_append, List.find?_cons_of_neg _ (by simp [h a (by simp)])]
    exact ih (fun b hb => h b (by simp [hb]))

theorem sapUc_success (uc : List Nat) (len fuel : Nat)
    (hr : (uc.take (strnlenModel uc)).all representable = true)
    (h32 : utf8Len (uc.take (strnlenModel uc)) < 4294967296)
    (hfuel : 2 ≤ fuel) :
    sapUcToStringWithLen fuel uc len = some (uc.take (strnlenModel uc)) := by
  obtain ⟨f, rfl⟩ : ∃ f, fuel = f + 2 := ⟨fuel - 2, by omega⟩
  by_cases hfit : utf8Len (uc.take (strnlenModel uc)) ≤ len % 4294967296
  · have hconv : RfcSAPUCToUTF8m (uc.take (strnlenModel uc)) (len % 4294967296) =
        .ok (uc.take (strnlenModel uc)) := by
      rw [RfcSAPUCToUTF8m, if_pos hr, if_pos hfit]
    simp only [sapUcToStringWithLen, hconv]
  · have hconv : RfcSAPUCToUTF8m (uc.take (strnlenModel uc)) (len % 4294967296) =
        .fail .BufferTooSmall (utf8Len (uc.take (strnlenModel uc))) := by
      rw [RfcSAPUCToUTF8m, if_pos hr, if_neg hfit]
    have hconv2 : RfcSAPUCToUTF8m (uc.take (strnlenModel uc))
        (utf8Len (uc.take (strnlenModel uc)) % 4294967296) =
        .ok (uc.take (strnlenModel uc)) := by
      rw [RfcSAPUCToUTF8m, if_pos hr, if_pos (by rw [Nat.mod_eq_of_lt h32])]
    simp only [sapUcToStringWithLen, hconv, hconv2]

theorem sapUc_conversion_error (uc : List Nat)
    (hr : (uc.take (strnlenModel uc)).all representable = false) :
    ∀ fuel len, sapUcToStringWithLen fuel uc len = none := by
  intro fuel
  induction fuel with
  | zero => intro len; rfl
  | succ f ih =>
    intro len
    have hconv : RfcSAPUCToUTF8m (uc.take (strnlenModel uc)) (len % 4294967296) =
        .fail .CodepageConversionFailure (len % 4294967296) := by
      rw [RfcSAPUCToUTF8m, if_neg (by simp [hr])]
    simp only [sapUcToStringWithLen, hconv]
    exact ih (len % 4294967296)

theorem parameterDescription_new_ok (name : List Nat) (dir : ParameterDirection)
    (ty : Ty) (hrep : name.all representable = true)
    (hfit : name.length + 1 ≤ abapNameCapacity) :
    ParameterDescription.new name dir ty =
      .ok { name := name ++ 0 :: (List.replicate abapNameCapacity 0).drop (name.length + 1)
            direction := dir
            nucLength := ty.len.1
            ucLength := ty.len.2
            decimals := ty.decimals
            parameterType := ty
            defaultValue := List.replicate parameterDefvalueCapacity 0
            parameterText := List.replicate 80 0
            optional := false } := by
  rw [ParameterDescription.new, ucWrite_success name (List.replicate abapNameCapacity 0)
    hrep (by simpa using hfit) (by simp [abapNameCapacity])]

theorem addField_ok (st : TypeDescState) (name : List Nat) (ty : Ty)
    (hrep : name.all representable = true)
    (hfit : name.length + 1 ≤ abapNameCapacity) :
    TypeDescription.addField st name ty =
      .ok (TypeDescState.mk
        (st.fields ++ [FieldDescState.mk
          (name ++ 0 :: (List.replicate abapNameCapacity 0).drop (name.length + 1)) ty
          ty.len.1 (f64CeilDivU32 st.nucLength ty.len.1)
          ty.len.2 (f64CeilDivU32 st.ucLength ty.len.2) ty.decimals])
        (f64CeilDivU32 st.nucLength ty.len.1)
        (f64CeilDivU32 st.ucLength ty.len.2)) := by
  rw [TypeDescription.addField, ucWrite_success name (List.replicate abapNameCapacity 0)
    hrep (by simpa using hfit) (by simp [abapNameCapacity])]

/-! ## The claims -/

/-- C9: constructing a composite `Type` value (`Table` or `Structure`) from
the foreign type code with an absent type description is a fatal
programming error: `Type::from_rfc_type` panics for every length and
decimal count rather than returning a value or an error record. -/
theorem c9_composite_without_description_panics :
    ∀ length decimals : Nat,
      Ty.fromRfcType .TABLE length decimals none =
        .panics "Table type without type description is not allowed!" ∧
      Ty.fromRfcType .STRUCTURE length decimals none =
        .panics "Structure type without type description is not allowed!" :=
  fun _ _ => ⟨rfl, rfl⟩

/-- C5 counterexample: the claim states `Char(n)` has lengths `(n, 2n)` for
every `n`, but the unicode length is computed in `u32` arithmetic, so at
`n = 2 ^ 31` the doubled length wraps to `0` instead of `2 ^ 32`. -/
theorem c5_counterexample :
    (Ty.Char 2147483648).len ≠ (2147483648, 2 * 2147483648) := by decide

/-- C5 (amended): `Type::len` follows the fixed per-variant table —
`Char(n)`, `BCD(n,_)`, `Num(n)` give `(n, 2n)` whenever `2n` does not
overflow `u32` (i.e. `n < 2 ^ 31`); `Float`, `Int8`, `DecF16`, the UTC
timestamp variants and the pointer-class variants give `(8, 8)`; a
composite `Table`/`Structure` gives its description's stored lengths when
the description is inlineable and `(8, 8)` otherwise — and
`Type::decimals` is non-zero only for the `BCD` variant. -/
theorem c5_len_decimals :
    (∀ n : Nat, n < 2147483648 → (Ty.Char n).len = (n, 2 * n)) ∧
    (∀ n d : Nat, n < 2147483648 → (Ty.BCD n d).len = (n, 2 * n)) ∧
    (∀ n : Nat, n < 2147483648 → (Ty.Num n).len = (n, 2 * n)) ∧
    Ty.Float.len = (8, 8) ∧
    Ty.Int8.len = (8, 8) ∧
    Ty.DecF16.len = (8, 8) ∧
    Ty.UTCLong.len = (8, 8) ∧
    Ty.UTCSecond.len = (8, 8) ∧
    Ty.UTCMinute.len = (8, 8) ∧
    Ty.String.len = (8, 8) ∧
    Ty.XString.len = (8, 8) ∧
    Ty.ABAPObject.len = (8, 8) ∧
    Ty.Box.len = (8, 8) ∧
    Ty.GenericBox.len = (8, 8) ∧
    (∀ t : TypeDescState, (Ty.Table t).len =
      if TypeDescState.inlineable t then (t.nucLength, t.ucLength) else (8, 8)) ∧
    (∀ t : TypeDescState, (Ty.Structure t).len =
      if TypeDescState.inlineable t then (t.nucLength, t.ucLength) else (8, 8)) ∧
    (∀ ty : Ty, ty.decimals ≠ 0 → ∃ n d, ty = Ty.BCD n d) := by
  refine ⟨?_, ?_, ?_, rfl, rfl, rfl, rfl, rfl, rfl, rfl, rfl, rfl, rfl, rfl,
    fun t => rfl, fun t => rfl, ?_⟩
  · intro n h
    simp [Ty.len, Nat.mod_eq_of_lt (by omega : n * 2 < 4294967296), Nat.mul_comm]
  · intro n d h
    simp [Ty.len, Nat.mod_eq_of_lt (by omega : n * 2 < 4294967296), Nat.mul_comm]
  · intro n h
    simp [Ty.len, Nat.mod_eq_of_lt (by omega : n * 2 < 4294967296), Nat.mul_comm]
  · intro ty h
    cases ty <;> first
      | exact ⟨_, _, rfl⟩
      | exact absurd rfl h

/-- C5 witness: the amended table evaluated at concrete inputs. -/
theorem c5_witness :
    (Ty.Char 3).len = (3, 6) ∧ (Ty.BCD 5 2).len = (5, 10) ∧
    (Ty.Num 7).len = (7, 14) ∧ (∃ n d, Ty.BCD 1 4 = Ty.BCD n d) := by
  obtain ⟨h1, h2, h3, -, -, -, -, -, -, -, -, -, -, -, -, -, hdec⟩ := c5_len_decimals
  exact ⟨h1 3 (by decide), h2 5 2 (by decide), h3 7 (by decide),
    hdec (Ty.BCD 1 4) (by decide)⟩

/-- C6: `UCStr::write` fails with a buffer-too-small error record — leaving
the target untouched rather than truncating — whenever the target cannot
hold the encoded text plus its terminator, and on success returns the
number of content units written; `UCStr::write_without_nul` on a target
exactly sized for the text fills it with the content only, leaving no
terminator in the target. -/
theorem c6_write_and_write_without_nul (s target : List Nat)
    (hrep : s.all representable = true)
    (h32 : target.length + 1 < 4294967296) :
    (target.length < s.length + 1 →
      UCStr.write target s = (target, .error (mkForeignError .BufferTooSmall))) ∧
    (s.length + 1 ≤ target.length →
      UCStr.write target s = (s ++ 0 :: target.drop (s.length + 1), .ok s.length)) ∧
    (target.length = s.length →
      UCStr.writeWithoutNul target s = (s, .ok s.length)) := by
  refine ⟨?_, ?_, ?_⟩
  · intro h
    exact ucWrite_tooSmall s target hrep h (by omega)
  · intro h
    exact ucWrite_success s target hrep h (by omega)
  · intro h
    exact writeWithoutNul_exact s target hrep h h32

/-- C6 witness: writing `HI` into a 2-unit buffer fails with the size
error, into a 3-unit buffer succeeds writing 2 units plus the terminator,
and `write_without_nul` into a 2-unit buffer fills it exactly. -/
theorem c6_witness :
    UCStr.write [0, 0] [72, 73] = ([0, 0], .error (mkForeignError .BufferTooSmall)) ∧
    UCStr.write [0, 0, 0] [72, 73] = ([72, 73, 0], .ok 2) ∧
    UCStr.writeWithoutNul [0, 0] [72, 73] = ([72, 73], .ok 2) := by
  refine ⟨?_, ?_, ?_⟩
  · exact (c6_write_and_write_without_nul [72, 73] [0, 0] (by decide) (by decide)).1
      (by decide)
  · exact (c6_write_and_write_without_nul [72, 73] [0, 0, 0] (by decide) (by decide)).2.1
      (by decide)
  · exact (c6_write_and_write_without_nul [72, 73] [0, 0] (by decide) (by decide)).2.2
      (by decide)

/-- C3 counterexample: decoding a buffer holding a lone surrogate makes the
underlying conversion fail with a non-"too small" codepage error, yet the
decoder does not surface an error record (its result type has no error
case) and does not stop after a single retry: even with 10 conversion
attempts of fuel it is still retrying. -/
theorem c3_counterexample :
    sapUcToStringWithLen 2 [55296] 1 = none ∧
    sapUcToStringWithLen 10 [55296] 1 = none := by decide

/-- C3 (amended): a buffer-too-small signal is retried with the required
size the conversion reports, and the successful retry's text is returned —
one retry suffices when the conversion then succeeds; but the retry is not
bounded and errors are never surfaced: any non-OK signal, including a
non-"too small" conversion error, is retried again with the reported
length, so a persistently failing conversion is retried for ever (here:
`none` for every amount of fuel). -/
theorem c3_decode_retry :
    (∀ (uc : List Nat) (len fuel : Nat),
      RfcSAPUCToUTF8m (uc.take (strnlenModel uc)) (len % 4294967296) =
        .fail .BufferTooSmall (utf8Len (uc.take (strnlenModel uc))) →
      utf8Len (uc.take (strnlenModel uc)) < 4294967296 → 2 ≤ fuel →
      sapUcToStringWithLen fuel uc len = some (uc.take (strnlenModel uc))) ∧
    (∀ (uc : List Nat) (len fuel : Nat),
      (uc.take (strnlenModel uc)).all representable = false →
      sapUcToStringWithLen fuel uc len = none) := by
  constructor
  · intro uc len fuel hfail h32 hfuel
    apply sapUc_success uc len fuel ?_ h32 hfuel
    by_contra hc
    rw [RfcSAPUCToUTF8m, if_neg hc] at hfail
    simp at hfail
  · intro uc len fuel hr
    exact sapUc_conversion_error uc hr fuel len

/-- C3 witness: decoding a 1-unit buffer holding the Euro sign (3 UTF-8
bytes) succeeds through exactly one retry; decoding a lone surrogate never
terminates within 7 attempts. -/
theorem c3_witness :
    sapUcToStringWithLen 2 [8364] 1 = some [8364] ∧
    sapUcToStringWithLen 7 [55296] 3 = none := by
  constructor
  · exact c3_decode_retry.1 [8364] 1 2 (by decide) (by decide) (by decide)
  · exact c3_decode_retry.2 [55296] 3 7 (by decide)

/-- C4 counterexample: the text `a\u0000b` consists only of representable
codepoints and is encoded into a sufficiently large buffer, yet decoding
yields only `a` because the decoder scans for the first NUL. -/
theorem c4_counterexample :
    ([97, 0, 98] : List Nat).all representable = true ∧
    4 ≤ 5 ∧
    UCStr.toStringLossy 2 (UCStr.write (List.replicate 5 0) [97, 0, 98]).1 =
      some [97] ∧
    ([97] : List Nat) ≠ [97, 0, 98] := by decide

/-- C4 (amended): for every text of representable codepoints that does not
contain the NUL codepoint, encoding it with `UCStr::write` into a
sufficiently large zeroed buffer and decoding that buffer with
`UCStr::to_string_lossy` yields the text again (two conversion attempts
always suffice). -/
theorem c4_encode_decode_round_trip (s : List Nat) (cap : Nat)
    (hrep : s.all representable = true) (hnul : (0 : Nat) ∉ s)
    (hcap : s.length + 1 ≤ cap) (hcap32 : cap < 4294967296)
    (hsz : 3 * s.length < 4294967296) :
    ∀ fuel, 2 ≤ fuel →
      UCStr.toStringLossy fuel (UCStr.write (List.replicate cap 0) s).1 = some s := by
  intro fuel hfuel
  rw [ucWrite_success s (List.replicate cap 0) hrep (by simpa using hcap)
    (by simpa using hcap32)]
  have hcontent : ∀ a ∈ s, a ≠ 0 := fun a ha h0 => hnul (h0 ▸ ha)
  have hstrn : strnlenModel (s ++ 0 :: (List.replicate cap 0).drop (s.length + 1)) =
      s.length := by
    rw [strnlenModel, takeWhile_ne_append s _ hcontent]
  have htake : (s ++ 0 :: (List.replicate cap 0).drop (s.length + 1)).take s.length =
      s := List.take_left s _
  have h3 : utf8Len s < 4294967296 := by
    have := utf8Len_le_three s
    omega
  have hmain := sapUc_success (s ++ 0 :: (List.replicate cap 0).drop (s.length + 1))
    (s ++ 0 :: (List.replicate cap 0).drop (s.length + 1)).length fuel
    (by rw [hstrn, htake]; exact hrep) (by rw [hstrn, htake]; exact h3) hfuel
  rw [hstrn, htake] at hmain
  exact hmain

/-- C4 witness: the round trip on the text `a€` through a 4-unit buffer
(the decode retries once because `a€` needs 4 UTF-8 bytes). -/
theorem c4_witness :
    UCStr.toStringLossy 2 (UCStr.write (List.replicate 4 0) [97, 8364]).1 =
      some [97, 8364] :=
  c4_encode_decode_round_trip [97, 8364] 4 (by decide) (by decide) (by decide)
    (by decide) (by decide) 2 (by decide)

/-- C10 counterexample: the claim states `Date::new(y, 9, 31)` succeeds for
every year, but for a year with more than four decimal digits the
formatted date exceeds the 8-unit `RFC_DATE` buffer and the constructor
panics on the unwrapped write instead of succeeding. -/
theorem c10_counterexample :
    Date.isOkNew 10000 9 31 = false ∧ (Date.new 10000 9 31).isPanic = true := by
  decide

/-- C10 (amended): for years of at most four decimal digits, `Date::new`
validates the day of a non-February month by parity alone — success
exactly for `1 ≤ d ≤ 30` when the month is even and `1 ≤ d ≤ 31` when it
is odd; in particular `Date::new(y, 9, 31)` succeeds although September
has 30 days, and `Date::new(y, 8, 31)` fails with a day-out-of-range error
(maximum 30) although August has 31 days.  For larger years the
constructor panics while writing the date. -/
theorem c10_parity_validation :
    (∀ y m d : Nat, y ≤ 9999 → 1 ≤ m → m ≤ 12 → m ≠ 2 →
      (Date.isOkNew y m d = true ↔
        (1 ≤ d ∧ d ≤ if m % 2 = 0 then 30 else 31))) ∧
    (∀ y : Nat, y ≤ 9999 → Date.isOkNew y 9 31 = true) ∧
    (∀ y : Nat, y ≤ 9999 → Date.dayErrNew y 8 31 = some 30) := by
  have hA : ∀ y m d : Nat, y ≤ 9999 → 1 ≤ m → m ≤ 12 → m ≠ 2 →
      (Date.isOkNew y m d = true ↔
        (1 ≤ d ∧ d ≤ if m % 2 = 0 then 30 else 31)) := by
    intro y m d hy h1 h12 h2
    unfold Date.isOkNew Date.new
    rw [if_neg (by omega : ¬(m < 1 ∨ 12 < m)), if_pos h2]
    by_cases hpar : m % 2 = 0
    · by_cases hd : d < 1 ∨ 30 < d
      · rw [if_pos ⟨hpar, hd⟩]
        simp [hpar]
        omega
      · rw [if_neg (fun hcon => hd hcon.2), if_neg (by omega),
          writeDate_ok y m d hy (by omega) (by omega)]
        simp [hpar]
        omega
    · by_cases hd : d < 1 ∨ 31 < d
      · rw [if_neg (fun hcon => hpar hcon.1), if_pos hd]
        simp [hpar]
        omega
      · rw [if_neg (fun hcon => hpar hcon.1), if_neg hd,
          writeDate_ok y m d hy (by omega) (by omega)]
        simp [hpar]
        omega
  refine ⟨hA, fun y hy => ?_, fun y hy => ?_⟩
  · exact (hA y 9 31 hy (by decide) (by decide) (by decide)).mpr (by decide)
  · unfold Date.dayErrNew Date.new
    rw [if_neg (by decide : ¬((8 : Nat) < 1 ∨ 12 < 8)),
      if_pos (by decide : (8 : Nat) ≠ 2), if_pos (by decide)]
    rfl

/-- C10 witness: `Date::new(2023, 9, 31)` succeeds and
`Date::new(2023, 8, 31)` fails with a day-out-of-range error capped at
30. -/
theorem c10_witness :
    Date.isOkNew 2023 9 31 = true ∧ Date.dayErrNew 2023 8 31 = some 30 :=
  ⟨c10_parity_validation.2.1 2023 (by decide),
    c10_parity_validation.2.2 2023 (by decide)⟩

/-- C1 (code bug, evaluation at the failing input): appending `Char(1)`
fields `A` then `B` to a fresh type description.  The claim — and the
code's own comment — call for offsets 0 and 1 in the non-unicode layout
(0 and 2 in the unicode layout) with the running lengths advanced to
offset plus length; the code instead stores the quotient
`ceil(current / length)` as the offset and sets the running lengths to
that offset, so both fields get offset `(0, 0)` and the running lengths
remain `(0, 0)`. -/
theorem c1_layout_bug :
    (match c1SecondAdd with
     | .ok st => some (st.fields.map (fun f => (f.nucOffset, f.ucOffset)),
         st.nucLength, st.ucLength)
     | .error _ => none) =
    some ([(0, 0), (0, 0)], 0, 0) := by decide

set_option maxRecDepth 100000 in
/-- C2 (code bug, evaluation at the failing input): a foreign error
structure with key `K` and message `M` loses its message in the round trip
`RFC_ERROR_INFO → RfcError → RFC_ERROR_INFO`: the message field comes back
as `K` because `From<&RFC_ERROR_INFO> for RfcError` decodes `message` from
`value.key` (error.rs line 88). -/
theorem c2_message_clobbered :
    ucContent c2Info.key = [75] ∧ ucContent c2Info.message = [77] ∧
    c2RoundTripMessage = some [75] ∧ ([75] : List Nat) ≠ [77] := by decide

/-- C8: `FuncDesc::get_parameter_by_index` never panics and returns the
parameter stored at the index (absent when out of range), and iterating
`ParameterIterator::next` from the start yields exactly the parameters
whose direction equals the requested one, in increasing index order — a
finite sequence in which non-matching entries are skipped without
terminating the iteration. -/
theorem c8_parameter_iteration :
    (∀ (fd : FuncDescState) (idx : Nat),
      FuncDesc.getParameterByIndex fd idx =
        .ret (FuncDesc.getParameterByIndexO fd idx)) ∧
    (∀ (fd : FuncDescState) (dir : ParameterDirection),
      ParameterIterator.toList fd dir 0 =
        fd.params.filter (fun p => p.direction == dir)) := by
  refine ⟨getParameterByIndex_ret, fun fd dir => ?_⟩
  have h := ParameterIterator.toList_filter fd dir 0
  simpa using h

/-- C7: name-based lookup on function and type descriptions.  A parameter
added through `ParameterDescription::new` and `add_parameter` is found
again by `get_parameter_by_name` and is equal — by name, direction and
type — to what was added; a name never added, including one exceeding the
maximum identifier length (30 characters), yields an absent result, not an
error; the same holds for field lookup on a type description (a field
appended with `add_field` is found with its name and type) and for
exception lookup. -/
theorem c7_name_lookup :
    (∀ (fd : FuncDescState) (name : List Nat) (dir : ParameterDirection)
        (ty : Ty) (p : ParamDescState),
      ParameterDescription.new name dir ty = .ok p →
      name.all representable = true → (0 : Nat) ∉ name →
      (∀ q ∈ fd.params, ucContent q.name ≠ name) →
      FuncDesc.getParameterByName (FunctionDescription.addParameter fd p) name =
          .ret (some p) ∧
        ucContent p.name = name ∧ p.direction = dir ∧ p.parameterType = ty) ∧
    (∀ (fd : FuncDescState) (name : List Nat),
      name.all representable = true → (0 : Nat) ∉ name →
      (∀ q ∈ fd.params, ucContent q.name ≠ name) →
      FuncDesc.getParameterByName fd name = .ret none) ∧
    (∀ (fd : FuncDescState) (name : List Nat),
      name.all representable = true → (0 : Nat) ∉ name → 30 < name.length →
      (∀ q ∈ fd.params, (ucContent q.name).length ≤ 30) →
      FuncDesc.getParameterByName fd name = .ret none) ∧
    (∀ (st : TypeDescState) (name : List Nat),
      name.all representable = true → (0 : Nat) ∉ name →
      (∀ f ∈ st.fields, ucContent f.name ≠ name) →
      TypeDesc.get st name = .ret none) ∧
    (∀ (st : TypeDescState) (name : List Nat) (ty : Ty) (st' : TypeDescState),
      TypeDescription.addField st name ty = .ok st' →
      name.all representable = true → (0 : Nat) ∉ name →
      (∀ f ∈ st.fields, ucContent f.name ≠ name) →
      ∃ f, TypeDesc.get st' name = .ret (some f) ∧ ucContent f.name = name ∧
        f.fieldType = ty) ∧
    (∀ (fd : FuncDescState) (name : List Nat),
      name.all representable = true → (0 : Nat) ∉ name →
      (∀ e ∈ fd.excs, ucContent e.key ≠ name) →
      FuncDesc.getExceptionByName fd name = .ret none) := by
  have hmiss_param : ∀ (fd : FuncDescState) (name : List Nat),
      name.all representable = true → (0 : Nat) ∉ name →
      (∀ q ∈ fd.params, ucContent q.name ≠ name) →
      FuncDesc.getParameterByName fd name = .ret none := by
    intro fd name hrep hnul hmiss
    rw [FuncDesc.getParameterByName, UCString.fromText, if_pos hrep]
    have hfind : fd.params.find?
        (fun q => ucContent q.name == ucContent (name ++ [0])) = none := by
      apply find?_none_of_all
      intro q hq
      show (ucContent q.name == ucContent (name ++ [0])) = false
      rw [ucContent_append_nul name hnul]
      simp [hmiss q hq]
    simp only [RfcGetParameterDescByNamem, hfind]
  refine ⟨?_, hmiss_param, ?_, ?_, ?_, ?_⟩
  · intro fd name dir ty p hnew hrep hnul hmiss
    have hfit : name.length + 1 ≤ abapNameCapacity := by
      by_contra hc
      rw [ParameterDescription.new, ucWrite_tooSmall name
        (List.replicate abapNameCapacity 0) hrep (by simp; omega)
        (by simp [abapNameCapacity])] at hnew
      cases hnew
    rw [parameterDescription_new_ok name dir ty hrep hfit] at hnew
    injection hnew with hnew
    subst hnew
    have hcontent : ucContent (name ++ 0 ::
        (List.replicate abapNameCapacity 0).drop (name.length + 1)) = name := by
      rw [ucContent]
      exact takeWhile_ne_append name _ (fun a ha h0 => hnul (h0 ▸ ha))
    refine ⟨?_, hcontent, rfl, rfl⟩
    rw [FuncDesc.getParameterByName, UCString.fromText, if_pos hrep]
    have hfind : (fd.params ++ [{
        name := name ++ 0 :: (List.replicate abapNameCapacity 0).drop (name.length + 1)
        direction := dir
        nucLength := ty.len.1
        ucLength := ty.len.2
        decimals := ty.decimals
        parameterType := ty
        defaultValue := List.replicate parameterDefvalueCapacity 0
        parameterText := List.replicate 80 0
        optional := false : ParamDescState }]).find?
        (fun q => ucContent q.name == ucContent (name ++ [0])) = some {
        name := name ++ 0 :: (List.replicate abapNameCapacity 0).drop (name.length + 1)
        direction := dir
        nucLength := ty.len.1
        ucLength := ty.len.2
        decimals := ty.decimals
        parameterType := ty
        defaultValue := List.replicate parameterDefvalueCapacity 0
        parameterText := List.replicate 80 0
        optional := false : ParamDescState } := by
      rw [find?_append_none _ fd.params _ (fun q hq => by
        show (ucContent q.name == ucContent (name ++ [0])) = false
        rw [ucContent_append_nul name hnul]
        simp [hmiss q hq])]
      rw [List.find?_cons_of_pos _ (by
        show (ucContent _ == ucContent (name ++ [0])) = true
        rw [ucContent_append_nul name hnul]
        simp only [hcontent]
        simp)]
    simp only [FunctionDescription.addParameter, RfcGetParameterDescByNamem]
    simp only [hfind]
  · intro fd name hrep hnul hlong hbound
    apply hmiss_param fd name hrep hnul
    intro q hq heq
    have := hbound q hq
    rw [heq] at this
    omega
  · intro st name hrep hnul hmiss
    rw [TypeDesc.get, UCString.fromText, if_pos hrep]
    have hfind : st.fields.find?
        (fun f => ucContent f.name == ucContent (name ++ [0])) = none := by
      apply find?_none_of_all
      intro f hf
      show (ucContent f.name == ucContent (name ++ [0])) = false
      rw [ucContent_append_nul name hnul]
      simp [hmiss f hf]
    simp only [RfcGetFieldDescByNamem, hfind]
  · intro st name ty st' hadd hrep hnul hmiss
    have hfit : name.length + 1 ≤ abapNameCapacity := by
      by_contra hc
      rw [TypeDescription.addField, ucWrite_tooSmall name
        (List.replicate abapNameCapacity 0) hrep (by simp; omega)
        (by simp [abapNameCapacity])] at hadd
      cases hadd
    rw [addField_ok st name ty hrep hfit] at hadd
    injection hadd with hadd
    subst hadd
    have hcontent : ucContent (name ++ 0 ::
        (List.replicate abapNameCapacity 0).drop (name.length + 1)) = name := by
      rw [ucContent]
      exact takeWhile_ne_append name _ (fun a ha h0 => hnul (h0 ▸ ha))
    refine ⟨FieldDescState.mk
      (name ++ 0 :: (List.replicate abapNameCapacity 0).drop (name.length + 1)) ty
      ty.len.1 (f64CeilDivU32 st.nucLength ty.len.1)
      ty.len.2 (f64CeilDivU32 st.ucLength ty.len.2) ty.decimals, ?_, hcontent, rfl⟩
    rw [TypeDesc.get, UCString.fromText, if_pos hrep]
    have hfind : (st.fields ++ [FieldDescState.mk
        (name ++ 0 :: (List.replicate abapNameCapacity 0).drop (name.length + 1)) ty
        ty.len.1 (f64CeilDivU32 st.nucLength ty.len.1)
        ty.len.2 (f64CeilDivU32 st.ucLength ty.len.2) ty.decimals]).find?
        (fun f => ucContent f.name == ucContent (name ++ [0])) =
        some (FieldDescState.mk
        (name ++ 0 :: (List.replicate abapNameCapacity 0).drop (name.length + 1)) ty
        ty.len.1 (f64CeilDivU32 st.nucLength ty.len.1)
        ty.len.2 (f64CeilDivU32 st.ucLength ty.len.2) ty.decimals) := by
      rw [find?_append_none _ st.fields _ (fun f hf => by
        show (ucContent f.name == ucContent (name ++ [0])) = false
        rw [ucContent_append_nul name hnul]
        simp [hmiss f hf])]
      rw [List.find?_cons_of_pos _ (by
        show (ucContent _ == ucContent (name ++ [0])) = true
        rw [ucContent_append_nul name hnul]
        simp only [FieldDescState.name, hcontent]
        simp)]
    have hfields : (TypeDescState.mk (st.fields ++ [FieldDescState.mk
        (name ++ 0 :: (List.replicate abapNameCapacity 0).drop (name.length + 1)) ty
        ty.len.1 (f64CeilDivU32 st.nucLength ty.len.1)
        ty.len.2 (f64CeilDivU32 st.ucLength ty.len.2) ty.decimals])
        (f64CeilDivU32 st.nucLength ty.len.1)
        (f64CeilDivU32 st.ucLength ty.len.2)).fields = st.fields ++ [FieldDescState.mk
        (name ++ 0 :: (List.replicate abapNameCapacity 0).drop (name.length + 1)) ty
        ty.len.1 (f64CeilDivU32 st.nucLength ty.len.1)
        ty.len.2 (f64CeilDivU32 st.ucLength ty.len.2) ty.decimals] := rfl
    simp only [RfcGetFieldDescByNamem, hfields, hfind]
  · intro fd name hrep hnul hmiss
    rw [FuncDesc.getExceptionByName, UCString.fromText, if_pos hrep]
    have hfind : fd.excs.find?
        (fun e => ucContent e.key == ucContent (name ++ [0])) = none := by
      apply find?_none_of_all
      intro e he
      show (ucContent e.key == ucContent (name ++ [0])) = false
      rw [ucContent_append_nul name hnul]
      simp [hmiss e he]
    simp only [RfcGetExceptionDescByNamem, hfind]

/-- C7 witness: the parameter `T` added to a fresh function description is
found again and unchanged; looking up `U` on the fresh description, and a
field on a fresh type description, yields an absent result. -/
theorem c7_witness :
    FuncDesc.getParameterByName
        (FunctionDescription.addParameter FunctionDescription.new c7Param) [84] =
      .ret (some c7Param) ∧
    FuncDesc.getParameterByName FunctionDescription.new [85] = .ret none ∧
    TypeDesc.get TypeDescription.new [85] = .ret none := by
  refine ⟨?_, ?_, ?_⟩
  · exact (c7_name_lookup.1 FunctionDescription.new [84] .Import (Ty.Char 1) c7Param
      (by rfl) (by decide) (by decide) (by simp [FunctionDescription.new])).1
  · exact c7_name_lookup.2.1 FunctionDescription.new [85] (by decide) (by decide)
      (by simp [FunctionDescription.new])
  · exact c7_name_lookup.2.2.2.1 TypeDescription.new [85] (by decide) (by decide)
      (by simp [TypeDescription.new, TypeDescState.fields])

end NwRfc
